import Mathlib

/-!
Verification development for the Flowise MCP tool-bridge
(packages/components/nodes/tools/MCP/core.ts).

The development embeds, as executable Lean definitions:
  - the JSON-Schema-like input-shape descriptions consumed by
    createSchemaModel,
  - the zod validator values the translator builds (with zod v3 parsing
    semantics: ZodObject defaults to stripping unknown keys, catchall
    validates unknown keys, ZodEnum and ZodLiteral match literally,
    ZodUnion returns the first success),
  - the translation functions createSchemaModel and createPropertySchema,
  - the MCPToolkit transport negotiation (createClient), the stdio
    environment overlay, initialize and get_tools with
    Promise.allSettled semantics, the per-call MCPTool adapter body, and
    validateArgsForLocalFileAccess.
-/

set_option autoImplicit false

namespace MCPBridge

/-- A JSON literal as it may appear in an enum list of a shape description. -/
inductive JLit where
  | str (s : String)
  | num (n : Int)
deriving DecidableEq, Repr

/-- JSON values (arguments passed to a built validator). -/
inductive Json where
  | null : Json
  | bool (b : Bool) : Json
  | num (n : Int) : Json
  | str (s : String) : Json
  | arr (elems : List Json) : Json
  | obj (fields : List (String × Json)) : Json

mutual
/-- One node of the JSON-Schema-like input-shape description taken by
createSchemaModel: fields type, properties, required, additionalProperties,
enum, items, description, in that order. -/
inductive JSchema where
  | node (ty : Option String) (props : JProperties) (req : Option (List String))
         (ap : JAdditional) (enm : Option (List JLit)) (items : JItems)
         (desc : Option String) : JSchema
/-- The properties field: absent (falsy in the source), or a present map,
possibly empty (an empty object is truthy in JavaScript). -/
inductive JProperties where
  | absent : JProperties
  | present (l : JPropList) : JProperties
/-- Ordered property map, as Object.entries would enumerate it. -/
inductive JPropList where
  | nil : JPropList
  | cons (name : String) (s : JSchema) (rest : JPropList) : JPropList
/-- The additionalProperties field: absent, a boolean, or a shape. -/
inductive JAdditional where
  | absent : JAdditional
  | boolVal (b : Bool) : JAdditional
  | schemaVal (s : JSchema) : JAdditional
/-- The items field of an array shape: absent or a shape. -/
inductive JItems where
  | absent : JItems
  | present (s : JSchema) : JItems
end

mutual
/-- The zod validator values built by the translator.  Constructors mirror
the zod combinators used in the source: z.string, z.enum, z.number,
z.literal, z.union, z.boolean, z.array, z.any, z.record,
z.object (with its unknown-key policy), .optional and .describe. -/
inductive Zod where
  | stringT : Zod
  | enumT (values : List JLit) : Zod
  | numberT : Zod
  | literalT (v : JLit) : Zod
  | unionT (members : ZodList) : Zod
  | booleanT : Zod
  | arrayT (elem : Zod) : Zod
  | anyT : Zod
  | recordT (valueS : Zod) : Zod
  | objectT (fields : ZodFields) (policy : ZodCatch) : Zod
  | optionalT (inner : Zod) : Zod
  | describeT (d : String) (inner : Zod) : Zod
/-- A list of zod schemas (union members). -/
inductive ZodList where
  | nil : ZodList
  | cons (s : Zod) (rest : ZodList) : ZodList
/-- Ordered field map of a zod object schema. -/
inductive ZodFields where
  | nil : ZodFields
  | cons (name : String) (s : Zod) (rest : ZodFields) : ZodFields
/-- Unknown-key policy of a zod object: the default strip mode, or a
catchall schema installed with .catchall. -/
inductive ZodCatch where
  | strip : ZodCatch
  | catchall (s : Zod) : ZodCatch
end

/-- schema.description || '' : the empty string when absent. -/
def getDesc (d : Option String) : String := d.getD ""

/-- Builds the union member list z.enum would get: one z.literal per value. -/
def litMembers : List JLit → ZodList
  | [] => .nil
  | v :: vs => .cons (.literalT v) (litMembers vs)

mutual
/-- createPropertySchema from core.ts: the recursive translation of one
non-root shape node into a zod validator.  The switch on schema.type is
rendered as an equality chain; each produced node carries
.describe(schema.description || ...). -/
def createPropertySchema : JSchema → Zod
  | .node ty props req ap enm items desc =>
    if ty = some "string" then
      match enm with
      | some (v :: vs) => .describeT (getDesc desc) (.enumT (v :: vs))
      | _ => .describeT (getDesc desc) .stringT
    else if ty = some "number" then
      match enm with
      | some (v :: vs) =>
        match vs with
        | [] => .describeT (getDesc desc) (.literalT v)
        | _ :: _ => .describeT (getDesc desc) (.unionT (litMembers (v :: vs)))
      | _ => .describeT (getDesc desc) .numberT
    else if ty = some "boolean" then
      .describeT (getDesc desc) .booleanT
    else if ty = some "array" then
      match items with
      | .present s => .describeT (getDesc desc) (.arrayT (createPropertySchema s))
      | .absent => .describeT (getDesc desc) (.arrayT .anyT)
    else if ty = some "object" then
      match props with
      | .present l => .describeT (getDesc desc) (.objectT (buildProps l (req.getD [])) .strip)
      | .absent =>
        match ap with
        | .schemaVal s => .describeT (getDesc desc) (.recordT (createPropertySchema s))
        | _ => .describeT (getDesc desc) (.recordT .anyT)
    else
      .describeT (getDesc desc) .anyT
/-- Translates a property map, wrapping fields missing from the required
list in .optional, preserving Object.entries order. -/
def buildProps : JPropList → List String → ZodFields
  | .nil, _ => .nil
  | .cons name s rest, required =>
    .cons name
      (if required.contains name then createPropertySchema s
       else .optionalT (createPropertySchema s))
      (buildProps rest required)
end

/-- createSchemaModel from core.ts: root translation.  A root whose type is
not the string object, or whose properties field is absent, is a hard error;
otherwise a z.object of the translated properties, with a catchall installed
when additionalProperties is true or a shape. -/
def createSchemaModel : JSchema → Except String Zod
  | .node ty props req ap _enm _items _desc =>
    match props with
    | .absent => .error "Invalid schema type or missing properties"
    | .present l =>
      if ty = some "object" then
        let base := Zod.objectT (buildProps l (req.getD []))
          (match ap with
           | .boolVal true => ZodCatch.catchall .anyT
           | .schemaVal s => ZodCatch.catchall (createPropertySchema s)
           | _ => ZodCatch.strip)
        .ok base
      else .error "Invalid schema type or missing properties"

/-- First-occurrence lookup of a key in a JSON object, as JavaScript
property access behaves on a well-formed object. -/
def lookupField (name : String) : List (String × Json) → Option Json
  | [] => none
  | (k, v) :: rest => if k = name then some v else lookupField name rest

/-- The declared field names of a zod object schema, in order. -/
def fieldNames : ZodFields → List String
  | .nil => []
  | .cons name _ rest => name :: fieldNames rest

mutual
/-- Whether a zod schema accepts the value undefined, which is how zod
treats a key missing from the input object: ZodOptional and ZodAny do,
a union does when some member does, and .describe is transparent. -/
def acceptsUndefined : Zod → Bool
  | .optionalT _ => true
  | .anyT => true
  | .describeT _ s => acceptsUndefined s
  | .unionT ms => anyAcceptsUndefined ms
  | _ => false
def anyAcceptsUndefined : ZodList → Bool
  | .nil => false
  | .cons s rest => acceptsUndefined s || anyAcceptsUndefined rest
end

mutual
/-- zod v3 parsing, restricted to the combinators the translator emits.
Returns the parsed (possibly transformed) value on success:
a ZodObject in the default strip mode drops unknown keys; with a catchall
each unknown key is validated by the catchall schema and kept. -/
def zodParse : Zod → Json → Option Json
  | .stringT, j => match j with | .str s => some (.str s) | _ => none
  | .enumT vals, j =>
    match j with
    | .str s => if vals.contains (JLit.str s) then some (.str s) else none
    | _ => none
  | .numberT, j => match j with | .num n => some (.num n) | _ => none
  | .literalT v, j =>
    match v, j with
    | .str s, .str t => if s = t then some (.str t) else none
    | .num n, .num m => if n = m then some (.num m) else none
    | _, _ => none
  | .unionT ms, j => zodParseUnion ms j
  | .booleanT, j => match j with | .bool b => some (.bool b) | _ => none
  | .arrayT e, j =>
    match j with
    | .arr xs => (xs.mapM (zodParse e)).map .arr
    | _ => none
  | .anyT, j => some j
  | .recordT v, j =>
    match j with
    | .obj kvs => (kvs.mapM (fun kv => (zodParse v kv.2).map (fun r => (kv.1, r)))).map .obj
    | _ => none
  | .objectT fields policy, j =>
    match j with
    | .obj kvs =>
      match policy with
      | .strip => (zodParseFields fields kvs).map .obj
      | .catchall cs =>
        let extras := kvs.filter (fun kv => !(fieldNames fields).contains kv.1)
        match zodParseFields fields kvs,
              extras.mapM (fun kv => (zodParse cs kv.2).map (fun r => (kv.1, r))) with
        | some ds, some es => some (.obj (ds ++ es))
        | _, _ => none
    | _ => none
  | .optionalT s, j => zodParse s j
  | .describeT _ s, j => zodParse s j
/-- Parses the declared fields of a zod object: a present key must validate,
a missing key is allowed exactly when its schema accepts undefined, in which
case it is omitted from the output. -/
def zodParseFields : ZodFields → List (String × Json) → Option (List (String × Json))
  | .nil, _ => some []
  | .cons name fs rest, kvs =>
    match lookupField name kvs with
    | some v =>
      match zodParse fs v with
      | some r => (zodParseFields rest kvs).map (fun tail => (name, r) :: tail)
      | none => none
    | none =>
      if acceptsUndefined fs then zodParseFields rest kvs
      else none
/-- A zod union returns the result of the first member that validates. -/
def zodParseUnion : ZodList → Json → Option Json
  | .nil, _ => none
  | .cons s rest, j =>
    match zodParse s j with
    | some r => some r
    | none => zodParseUnion rest j
end

/-- One entry of the remote tools/list response: name, optional
description, raw input shape. -/
structure ToolDescriptor where
  name : String
  description : Option String
  inputSchema : JSchema

/-- The data of one constructed adapter, as passed to the langchain tool
factory: name, description (empty string when absent) and the translated
argument schema. -/
structure MCPToolSpec where
  name : String
  description : String
  argsSchema : Zod

/-- Builds one adapter from a descriptor, the body of the map in get_tools:
the only failing step is createSchemaModel, whose error rejects this
descriptor and no other. -/
def buildTool (d : ToolDescriptor) : Except String MCPToolSpec :=
  match createSchemaModel d.inputSchema with
  | .error e => .error e
  | .ok z => .ok { name := d.name, description := d.description.getD "", argsSchema := z }

/-- get_tools from core.ts: every descriptor is attempted, the outcomes are
joined with Promise.allSettled, rejected ones are dropped (after being
logged) and the fulfilled ones are returned in order. -/
def get_tools (descs : List ToolDescriptor) : List MCPToolSpec :=
  (descs.map buildTool).filterMap Except.toOption

/-- The mutable toolkit fields touched by initialize: the built adapters
and the cached raw catalog. -/
structure ToolkitState where
  tools : List MCPToolSpec
  cachedCatalog : Option (List ToolDescriptor)

/-- initialize from core.ts, with the tools/list round trip abstracted as
its outcome: a no-op when a catalog is already cached, otherwise the
discovery result is cached and the adapters are built; a discovery failure
aborts the whole initialization. -/
def initToolkit (st : ToolkitState) (listResult : Except String (List ToolDescriptor)) :
    Except String ToolkitState :=
  match st.cachedCatalog with
  | some _ => .ok st
  | none =>
    match listResult with
    | .error e => .error e
    | .ok descs => .ok { tools := get_tools descs, cachedCatalog := some descs }

/-- The two transport kinds of the toolkit. -/
inductive TransportType where
  | stdio : TransportType
  | sse : TransportType
deriving DecidableEq

/-- The serverParams fields read by createClient. -/
structure ServerParams where
  command : Option String := none
  args : List String := []
  env : Option (List (String × String)) := none
  url : Option String := none
  headers : Option (List (String × String)) := none

/-- A constructed transport object.  sseT records both the requestInit
headers and the headers the eventSourceInit fetch wrapper attaches. -/
inductive Transport where
  | stdioT (cmd : Option String) (args : List String) (env : List (String × String)) : Transport
  | streamableHTTP (url : String) (requestHeaders : Option (List (String × String))) : Transport
  | sseT (url : String) (requestHeaders : Option (List (String × String)))
         (fetchHeaders : Option (List (String × String))) : Transport
deriving DecidableEq

/-- The env object built for the stdio transport: the configured overlay
spread first, then a PATH binding from the host process.  Later bindings
override earlier ones, as in a JavaScript object literal. -/
def jsMergeEnv (cfgEnv : List (String × String)) (hostPath : String) : List (String × String) :=
  cfgEnv ++ [("PATH", hostPath)]

/-- Lookup in an env built by spreading: the last binding of a key wins. -/
def envGet (env : List (String × String)) (key : String) : Option String :=
  match env with
  | [] => none
  | (k, v) :: rest =>
    match envGet rest key with
    | some r => some r
    | none => if k = key then some v else none

/-- The streamable HTTP transport as constructed in createClient: headers go
into requestInit when configured.  The source constructs this object twice
in a row with identical arguments before the single connect attempt; the
value below is that final object. -/
def mkStreamableTransport (url : String) (headers : Option (List (String × String))) : Transport :=
  .streamableHTTP url headers

/-- The SSE fallback transport as constructed in createClient: when headers
are configured they are placed both in requestInit and in the fetch wrapper
of eventSourceInit (the same duplicated-construction note applies). -/
def mkSSETransport (url : String) (headers : Option (List (String × String))) : Transport :=
  match headers with
  | some h => .sseT url (some h) (some h)
  | none => .sseT url none none

/-- createClient from core.ts, with the connect call abstracted as an
outcome function on the constructed transport.  Returns the ordered list of
connect attempts made together with the result: for stdio one attempt on a
transport carrying the merged env; for sse a missing URL is an error before
any transport is constructed, otherwise streamable HTTP is tried and, on
any error, SSE is tried once, whose failure is the surfaced one. -/
def createClient (sp : ServerParams) (tt : TransportType) (hostPath : String)
    (connect : Transport → Except String Unit) :
    List Transport × Except String Transport :=
  match tt with
  | .stdio =>
    let t := Transport.stdioT sp.command sp.args (jsMergeEnv (sp.env.getD []) hostPath)
    match connect t with
    | .ok _ => ([t], .ok t)
    | .error e => ([t], .error e)
  | .sse =>
    match sp.url with
    | none => ([], .error "URL is required for SSE transport")
    | some u =>
      let t1 := mkStreamableTransport u sp.headers
      match connect t1 with
      | .ok _ => ([t1], .ok t1)
      | .error _ =>
        let t2 := mkSSETransport u sp.headers
        match connect t2 with
        | .ok _ => ([t1, t2], .ok t2)
        | .error e2 => ([t1, t2], .error e2)

/-- Observable events of one adapter invocation, in order. -/
inductive InvEvent where
  | created (client : Nat) : InvEvent
  | requested (client : Nat) : InvEvent
  | closed (client : Nat) : InvEvent
  | returned (r : Except String String) : InvEvent

/-- The body of the tool closure built by MCPTool: create a fresh client,
issue the tools/call request, serialize the content of the response, and in
a finally block close the client whenever one was created, on the success
and on the error path alike.  createClient and the remote call are
abstracted as outcomes; stringify stands for JSON.stringify on the content
payload. -/
def mcpToolCall (stringify : Json → String) (createRes : Except String Nat)
    (requestRes : Nat → Except String Json) : List InvEvent :=
  match createRes with
  | .error e => [.returned (.error e)]
  | .ok c =>
    match requestRes c with
    | .ok content => [.created c, .requested c, .closed c, .returned (.ok (stringify content))]
    | .error e => [.created c, .requested c, .closed c, .returned (.error e)]

/-- pat is an initial segment of s. -/
def charsStart : List Char → List Char → Bool
  | [], _ => true
  | _ :: _, [] => false
  | p :: ps, c :: cs => p = c && charsStart ps cs

/-- pat occurs somewhere in s (the unanchored regex tests). -/
def charsContain (pat : List Char) : List Char → Bool
  | [] => charsStart pat []
  | c :: cs => charsStart pat (c :: cs) || charsContain pat cs

/-- pat is a final segment of s (the end-anchored regex tests). -/
def charsEnd (pat : List Char) (s : List Char) : Bool :=
  charsStart pat.reverse s.reverse

/-- Regex caret slash bracket-negated-slash: a Unix absolute path, a leading
slash followed by a character other than a slash. -/
def unixAbsolute (s : String) : Bool :=
  match s.data with
  | '/' :: c :: _ => c != '/'
  | _ => false

/-- A Windows absolute path: a drive letter, a colon and a backslash. -/
def windowsAbsolute (s : String) : Bool :=
  match s.data with
  | a :: ':' :: '\\' :: _ => a.isAlpha
  | _ => false

/-- The file extensions of the denylist, lowercase. -/
def dangerousExtensions : List String :=
  ["exe", "bat", "cmd", "sh", "ps1", "vbs", "scr", "com", "pif", "dll", "sys"]

/-- ASCII lowercasing of a character list, the effect of a case-insensitive
regex with lowercase pattern constants. -/
def lowerChars (cs : List Char) : List Char := cs.map Char.toLower

/-- Case-insensitive end-anchored test for a dot followed by one of the
denylisted extensions. -/
def hasDangerousExtension (s : String) : Bool :=
  dangerousExtensions.any (fun e => charsEnd ('.' :: e.data) (lowerChars s.data))

/-- The flag keywords of the file-I/O option patterns, lowercase. -/
def flagKeywords : List String :=
  ["file", "input", "output", "config", "load", "save", "import", "export", "read", "write"]

/-- cs begins with one of the keywords followed by an equals sign. -/
def keywordThenEq (cs : List Char) : Bool :=
  flagKeywords.any (fun k => charsStart (k.data ++ ['=']) cs)

/-- cs is exactly one of the keywords. -/
def keywordExact (cs : List Char) : Bool :=
  flagKeywords.any (fun k => cs = k.data)

/-- Case-insensitive anchored test for one or two dashes, a keyword and an
equals sign, as in the first flag regex. -/
def flagWithEq (s : String) : Bool :=
  match lowerChars s.data with
  | '-' :: rest =>
    keywordThenEq rest ||
      (match rest with
       | '-' :: r2 => keywordThenEq r2
       | _ => false)
  | _ => false

/-- Case-insensitive whole-string test for one or two dashes followed
exactly by a keyword, as in the second flag regex. -/
def flagExact (s : String) : Bool :=
  match lowerChars s.data with
  | '-' :: rest =>
    keywordExact rest ||
      (match rest with
       | '-' :: r2 => keywordExact r2
       | _ => false)
  | _ => false

/-- The disjunction of the dangerousPatterns array, in source order. -/
def matchesDangerous (s : String) : Bool :=
  unixAbsolute s ||
  windowsAbsolute s ||
  charsContain ['.', '.', '/'] s.data ||
  charsContain ['.', '.', '\\'] s.data ||
  charsStart ['.', '.'] s.data ||
  charsStart ['.', '/'] s.data ||
  charsStart ['~', '/'] s.data ||
  charsStart "file://".data s.data ||
  hasDangerousExtension s ||
  flagWithEq s ||
  flagExact s

/-- The per-argument checks of validateArgsForLocalFileAccess, in source
order: the pattern denylist, then the null-byte check, then the length
ceiling of 1000 characters (with the message truncating the argument). -/
def validateArg (s : String) : Except String Unit :=
  if matchesDangerous s then
    .error ("Argument contains potential local file access: \"" ++ s ++ "\"")
  else if s.data.any (fun c => c = Char.ofNat 0) then
    .error ("Argument contains null byte: \"" ++ s ++ "\"")
  else if s.length > 1000 then
    .error ("Argument is suspiciously long (" ++ toString s.length ++ " characters): \"" ++
      s.take 100 ++ "...\"")
  else
    .ok ()

/-- validateArgsForLocalFileAccess from core.ts: arguments are checked in
order and the first offending one raises. -/
def validateArgsForLocalFileAccess : List String → Except String Unit
  | [] => .ok ()
  | a :: rest =>
    match validateArg a with
    | .error e => .error e
    | .ok _ => validateArgsForLocalFileAccess rest

/-- True exactly on the error outcome. -/
def isErr {ε α : Type} : Except ε α → Bool
  | .error _ => true
  | .ok _ => false

/-- Fixture: the shape with type string and nothing else, a valid property
shape but an invalid root shape. -/
def strSchema : JSchema := .node (some "string") .absent none .absent none .absent none

/-- Fixture: the shape with type number and nothing else. -/
def numSchema : JSchema := .node (some "number") .absent none .absent none .absent none

/-- Fixture: a root object shape with one optional string property x and no
additionalProperties field. -/
def rootX : JSchema :=
  .node (some "object") (.present (.cons "x" strSchema .nil)) none .absent none .absent none

/-- Fixture: as rootX but with additionalProperties set to true. -/
def rootXtrue : JSchema :=
  .node (some "object") (.present (.cons "x" strSchema .nil)) none (.boolVal true) none .absent none

/-- Fixture: as rootX but with additionalProperties set to a number shape. -/
def rootXnum : JSchema :=
  .node (some "object") (.present (.cons "x" strSchema .nil)) none (.schemaVal numSchema) none
    .absent none

/-- Fixture: a valid operation descriptor named alpha. -/
def d1 : ToolDescriptor := { name := "alpha", description := some "first", inputSchema := rootX }

/-- Fixture: a descriptor whose root shape is invalid (type string). -/
def dBad : ToolDescriptor := { name := "bad", description := none, inputSchema := strSchema }

/-- Fixture: a valid operation descriptor named gamma. -/
def d3 : ToolDescriptor := { name := "gamma", description := none, inputSchema := rootX }

/-- Fixture: a connect outcome function that always succeeds. -/
def connOk : Transport → Except String Unit := fun _ => .ok ()

/-- Fixture: a connect outcome function that always fails. -/
def connFail : Transport → Except String Unit := fun _ => .error "connection refused"

/-- Fixture: a network server configuration with URL and headers. -/
def spNet : ServerParams :=
  { url := some "http://example.test/mcp", headers := some [("Authorization", "Bearer t")] }

/-- Fixture: a stdio server configuration whose env overlay supplies its
own PATH binding. -/
def spPath : ServerParams :=
  { command := some "run-server", env := some [("PATH", "customPath")] }

/-- In an env built by spreading a configured overlay and then writing a
PATH binding, PATH resolves to that final binding. -/
theorem envGet_append_path (cfg : List (String × String)) (hostPath : String) :
    envGet (cfg ++ [("PATH", hostPath)]) "PATH" = some hostPath := by
  induction cfg with
  | nil => rfl
  | cons kv rest ih => simp [envGet, ih]

/-- Looking up a declared name skips a leading entry with a different key. -/
theorem lookupField_cons_ne (name e : String) (v : Json) (kvs : List (String × Json))
    (h : e ≠ name) : lookupField name ((e, v) :: kvs) = lookupField name kvs := by
  simp [lookupField, h]

/-- Parsing the declared fields of a zod object never inspects an input
entry whose key is not declared: prepending such an entry leaves the
result unchanged. -/
theorem zodParseFields_cons_undeclared (fields : ZodFields) (e : String) (v : Json)
    (kvs : List (String × Json)) (h : (fieldNames fields).contains e = false) :
    zodParseFields fields ((e, v) :: kvs) = zodParseFields fields kvs := by
  match fields with
  | .nil => rfl
  | .cons name fs rest =>
    simp only [fieldNames, List.contains_cons, Bool.or_eq_false_iff, beq_eq_false_iff_ne,
      ne_eq] at h
    simp only [zodParseFields, lookupField_cons_ne name e v kvs h.1,
      zodParseFields_cons_undeclared rest e v kvs h.2]

/-- Claim C1: adapter construction during initialization has settle-all
semantics: every descriptor is attempted independently, a translation or
construction failure of one descriptor does not abort the others, failed
descriptors are dropped, and the resulting tool set is exactly the ordered
subset of descriptors whose construction succeeded; in particular, for
three descriptors of which one has an invalid root shape, initialization
succeeds and the catalog holds exactly the two valid operations. -/
theorem claim_C1_settle_all_catalog :
    (∀ descs : List ToolDescriptor,
      initToolkit { tools := [], cachedCatalog := none } (.ok descs)
        = .ok { tools := get_tools descs, cachedCatalog := some descs }) ∧
    (∀ descs : List ToolDescriptor,
      get_tools descs = descs.filterMap (fun d => (buildTool d).toOption)) ∧
    isErr (createSchemaModel dBad.inputSchema) = true ∧
    initToolkit { tools := [], cachedCatalog := none } (.ok [d1, dBad, d3])
      = .ok { tools := get_tools [d1, dBad, d3], cachedCatalog := some [d1, dBad, d3] } ∧
    (get_tools [d1, dBad, d3]).map (fun t => t.name) = ["alpha", "gamma"] := by
  refine ⟨fun _ => rfl, fun descs => ?_, rfl, rfl, rfl⟩
  simp only [get_tools, List.filterMap_map]
  rfl

/-- Claim C2: for a network configuration with a URL, when connecting over
the streamable HTTP transport fails with any error, the SSE transport is
attempted as a fallback carrying the identical configured headers both in
requestInit and in the event-source fetch wrapper; when both attempts fail,
the error of the second attempt is the surfaced result and exactly those
two attempts are made. -/
theorem claim_C2_network_fallback (sp : ServerParams) (u hostPath : String)
    (connect : Transport → Except String Unit) (e1 : String)
    (hurl : sp.url = some u)
    (hfail : connect (mkStreamableTransport u sp.headers) = .error e1) :
    (createClient sp .sse hostPath connect).1
      = [mkStreamableTransport u sp.headers, mkSSETransport u sp.headers] ∧
    mkSSETransport u sp.headers = .sseT u sp.headers sp.headers ∧
    (∀ e2 : String, connect (mkSSETransport u sp.headers) = .error e2 →
      (createClient sp .sse hostPath connect).2 = .error e2) := by
  refine ⟨?_, ?_, ?_⟩
  · simp only [createClient, hurl, hfail]
    cases h2 : connect (mkSSETransport u sp.headers) <;> simp
  · cases h : sp.headers <;> simp [mkSSETransport, h]
  · intro e2 h2
    simp [createClient, hurl, hfail, h2]

/-- Witness for claim C2 at a concrete configuration where both connection
attempts fail. -/
theorem claim_C2_network_fallback_witness :
    (createClient spNet .sse "/usr/bin" connFail).1
      = [mkStreamableTransport "http://example.test/mcp" spNet.headers,
         mkSSETransport "http://example.test/mcp" spNet.headers] ∧
    mkSSETransport "http://example.test/mcp" spNet.headers
      = .sseT "http://example.test/mcp" spNet.headers spNet.headers ∧
    (createClient spNet .sse "/usr/bin" connFail).2 = .error "connection refused" := by
  have h := claim_C2_network_fallback spNet "http://example.test/mcp" "/usr/bin" connFail
    "connection refused" rfl rfl
  exact ⟨h.1, h.2.1, h.2.2 "connection refused" rfl⟩

/-- Claim C3 counterexample: with three descriptors aside, for the root
shape with one optional property x and no additionalProperties field, the
claim asserts that an input carrying the undeclared field y is rejected;
the built validator instead accepts it, stripping the extra field, because
a zod object without catchall defaults to strip mode, not strict mode. -/
theorem claim_C3_counterexample :
    (createSchemaModel rootX).toOption.bind
      (fun z => zodParse z (.obj [("y", Json.num 1)])) = some (Json.obj []) := rfl

/-- Claim C3 amended: when the root additionalProperties field is neither
true nor a shape, the produced validator has the default strip policy for
extra fields: an input object field not listed in properties is ignored
(never validated) and silently removed from the parse result, not
rejected; when additionalProperties is true, untyped extra fields are
permitted and preserved; when it is a shape description, extra fields are
type-checked against its translation. -/
theorem claim_C3_amended :
    (∀ (props : JPropList) (req : Option (List String)) (enm : Option (List JLit))
       (items : JItems) (desc : Option String) (ap : JAdditional),
      ap = .absent ∨ ap = .boolVal false →
      createSchemaModel (.node (some "object") (.present props) req ap enm items desc)
        = .ok (.objectT (buildProps props (req.getD [])) .strip)) ∧
    (∀ (fields : ZodFields) (e : String) (v : Json) (kvs : List (String × Json)),
      (fieldNames fields).contains e = false →
      zodParse (.objectT fields .strip) (.obj ((e, v) :: kvs))
        = zodParse (.objectT fields .strip) (.obj kvs)) ∧
    (createSchemaModel rootXtrue).toOption.bind
      (fun z => zodParse z (.obj [("y", Json.num 1)])) = some (Json.obj [("y", Json.num 1)]) ∧
    (createSchemaModel rootXnum).toOption.bind
      (fun z => zodParse z (.obj [("y", Json.num 1)])) = some (Json.obj [("y", Json.num 1)]) ∧
    (createSchemaModel rootXnum).toOption.bind
      (fun z => zodParse z (.obj [("y", Json.str "s")])) = none := by
  refine ⟨?_, ?_, rfl, rfl, rfl⟩
  · rintro props req enm items desc ap (rfl | rfl) <;> rfl
  · intro fields e v kvs h
    simp only [zodParse, zodParseFields_cons_undeclared fields e v kvs h]

/-- Witness for claim C3 amended, instantiating both universal parts at
concrete inputs. -/
theorem claim_C3_amended_witness :
    createSchemaModel (.node (some "object") (.present (.cons "x" strSchema .nil)) none .absent
        none .absent none)
      = .ok (.objectT (buildProps (.cons "x" strSchema .nil) []) .strip) ∧
    zodParse (.objectT (buildProps (.cons "x" strSchema .nil) []) .strip)
        (.obj [("y", Json.num 1)])
      = zodParse (.objectT (buildProps (.cons "x" strSchema .nil) []) .strip) (.obj []) :=
  ⟨claim_C3_amended.1 (.cons "x" strSchema .nil) none none .absent none .absent (Or.inl rfl),
   claim_C3_amended.2.1 (buildProps (.cons "x" strSchema .nil) []) "y" (Json.num 1) [] rfl⟩

/-- Claim C4 counterexample: the claim asserts that a caller-supplied PATH
in the configured env is preserved; with the concrete stdio configuration
whose env binds PATH to customPath and host PATH /hostBin, the spawned
transport resolves PATH to the host value, not the configured one. -/
theorem claim_C4_counterexample :
    (createClient spPath .stdio "/hostBin" connOk).2
      = .ok (.stdioT (some "run-server") [] (jsMergeEnv [("PATH", "customPath")] "/hostBin")) ∧
    envGet (jsMergeEnv [("PATH", "customPath")] "/hostBin") "PATH" = some "/hostBin" ∧
    envGet (jsMergeEnv [("PATH", "customPath")] "/hostBin") "PATH" ≠ some "customPath" :=
  ⟨rfl, rfl, by decide⟩

/-- Claim C4 amended: for every process-transport configuration, the
environment passed to the spawned process is the configured overlay with a
PATH binding from the host process written last, so PATH always resolves to
the host value — a caller-supplied PATH is overridden, and PATH comes
from the host whether or not the configured env provides one. -/
theorem claim_C4_amended (sp : ServerParams) (hostPath : String)
    (connect : Transport → Except String Unit) :
    (createClient sp .stdio hostPath connect).1
      = [.stdioT sp.command sp.args (jsMergeEnv (sp.env.getD []) hostPath)] ∧
    envGet (jsMergeEnv (sp.env.getD []) hostPath) "PATH" = some hostPath := by
  constructor
  · cases h : connect (.stdioT sp.command sp.args (jsMergeEnv (sp.env.getD []) hostPath)) <;>
      simp [createClient, h]
  · exact envGet_append_path _ _

/-- Claim C5: on every adapter invocation, the client created for that call
is closed before the call returns or its error propagates: on success the
call returns the serialized content payload after the close event, and on
failure the error of the remote request is propagated unchanged after the
close event, with no retry. -/
theorem claim_C5_session_closed (stringify : Json → String) (createRes : Except String Nat)
    (requestRes : Nat → Except String Json) (c : Nat) (content : Json) (e : String) :
    (createRes = .ok c → requestRes c = .ok content →
      mcpToolCall stringify createRes requestRes
        = [.created c, .requested c, .closed c, .returned (.ok (stringify content))]) ∧
    (createRes = .ok c → requestRes c = .error e →
      mcpToolCall stringify createRes requestRes
        = [.created c, .requested c, .closed c, .returned (.error e)]) := by
  constructor
  · intro h1 h2
    simp [mcpToolCall, h1, h2]
  · intro h1 h2
    simp [mcpToolCall, h1, h2]

/-- Witness for claim C5 at a concrete invocation, on the success path and
on the failure path. -/
theorem claim_C5_session_closed_witness :
    mcpToolCall (fun _ => "serialized") (.ok 7) (fun _ => .ok .null)
      = [.created 7, .requested 7, .closed 7, .returned (.ok "serialized")] ∧
    mcpToolCall (fun _ => "serialized") (.ok 7) (fun _ => .error "remote failure")
      = [.created 7, .requested 7, .closed 7, .returned (.error "remote failure")] :=
  ⟨(claim_C5_session_closed (fun _ => "serialized") (.ok 7) (fun _ => .ok .null) 7 .null
      "remote failure").1 rfl rfl,
   (claim_C5_session_closed (fun _ => "serialized") (.ok 7) (fun _ => .error "remote failure") 7
      .null "remote failure").2 rfl rfl⟩

/-- Claim C6: a root whose declared type is not object, or whose properties
field is absent, is a hard translation error and never a silent accept-any
validator, while a non-root node of unrecognized type translates to the
described accept-any validator. -/
theorem claim_C6_root_translation_error :
    (∀ (ty : Option String) (props : JProperties) (req : Option (List String))
       (ap : JAdditional) (enm : Option (List JLit)) (items : JItems) (desc : Option String),
      ty ≠ some "object" ∨ props = JProperties.absent →
      createSchemaModel (.node ty props req ap enm items desc)
        = .error "Invalid schema type or missing properties") ∧
    (∀ (ty : Option String) (props : JProperties) (req : Option (List String))
       (ap : JAdditional) (enm : Option (List JLit)) (items : JItems) (desc : Option String),
      ty ∉ ([some "string", some "number", some "boolean", some "array", some "object"] :
        List (Option String)) →
      createPropertySchema (.node ty props req ap enm items desc)
        = .describeT (getDesc desc) .anyT) := by
  constructor
  · intro ty props req ap enm items desc h
    cases props with
    | absent => rfl
    | present l =>
      have hty : ty ≠ some "object" := by
        rcases h with h | h
        · exact h
        · exact absurd h (by intro hc; cases hc)
      simp [createSchemaModel, hty]
  · intro ty props req ap enm items desc h
    simp only [List.mem_cons, List.not_mem_nil, or_false, not_or] at h
    obtain ⟨h1, h2, h3, h4, h5⟩ := h
    rw [createPropertySchema.eq_def]
    simp [h1, h2, h3, h4, h5]

/-- Witness for claim C6: a root of type string is a translation error, and
a non-root node of unknown type banana translates to accept-any. -/
theorem claim_C6_root_translation_error_witness :
    createSchemaModel strSchema = .error "Invalid schema type or missing properties" ∧
    createPropertySchema (.node (some "banana") .absent none .absent none .absent none)
      = .describeT "" .anyT :=
  ⟨claim_C6_root_translation_error.1 (some "string") .absent none .absent none .absent none
      (Or.inr rfl),
   claim_C6_root_translation_error.2 (some "banana") .absent none .absent none .absent none
      (by decide)⟩

/-- Claim C7: for a network configuration missing a URL, createClient
raises the configuration error with an empty attempt list: no transport is
constructed and no connect attempt occurs. -/
theorem claim_C7_missing_url (sp : ServerParams) (hostPath : String)
    (connect : Transport → Except String Unit) (h : sp.url = none) :
    createClient sp .sse hostPath connect = ([], .error "URL is required for SSE transport") := by
  simp [createClient, h]

/-- Witness for claim C7 at the empty configuration. -/
theorem claim_C7_missing_url_witness :
    createClient {} .sse "/usr/bin" connOk = ([], .error "URL is required for SSE transport") :=
  claim_C7_missing_url {} "/usr/bin" connOk rfl

/-- Claim C8: a string shape with enum list a translates to the enum
validator accepting exactly the string a and rejecting b; a number shape
with enum 1, 2 translates to a union of two literals accepting 1 and 2 and
rejecting 3; and a number enum with exactly one value collapses to a single
literal validator rather than a union. -/
theorem claim_C8_enum_translation :
    createPropertySchema (.node (some "string") .absent none .absent (some [.str "a"]) .absent
        none)
      = .describeT "" (.enumT [.str "a"]) ∧
    zodParse (.describeT "" (.enumT [.str "a"])) (.str "a") = some (.str "a") ∧
    zodParse (.describeT "" (.enumT [.str "a"])) (.str "b") = none ∧
    createPropertySchema (.node (some "number") .absent none .absent (some [.num 1, .num 2])
        .absent none)
      = .describeT "" (.unionT (.cons (.literalT (.num 1)) (.cons (.literalT (.num 2)) .nil))) ∧
    zodParse (.describeT "" (.unionT (.cons (.literalT (.num 1)) (.cons (.literalT (.num 2))
        .nil)))) (.num 1) = some (.num 1) ∧
    zodParse (.describeT "" (.unionT (.cons (.literalT (.num 1)) (.cons (.literalT (.num 2))
        .nil)))) (.num 2) = some (.num 2) ∧
    zodParse (.describeT "" (.unionT (.cons (.literalT (.num 1)) (.cons (.literalT (.num 2))
        .nil)))) (.num 3) = none ∧
    createPropertySchema (.node (some "number") .absent none .absent (some [.num 5]) .absent
        none)
      = .describeT "" (.literalT (.num 5)) :=
  ⟨rfl, rfl, rfl, rfl, rfl, rfl, rfl, rfl⟩

/-- Claim C9: each of the arguments ../secret, /etc/passwd, a Windows
absolute path, any string of 1001 characters, and any string containing a
null byte makes the argument safety guard raise, while hello and
--flag=value pass without raising. -/
theorem claim_C9_safety_guard :
    isErr (validateArgsForLocalFileAccess ["../secret"]) = true ∧
    isErr (validateArgsForLocalFileAccess ["/etc/passwd"]) = true ∧
    isErr (validateArgsForLocalFileAccess ["C:\\Windows\\x"]) = true ∧
    (∀ s : String, s.length = 1001 →
      isErr (validateArgsForLocalFileAccess [s]) = true) ∧
    (∀ s : String, Char.ofNat 0 ∈ s.data →
      isErr (validateArgsForLocalFileAccess [s]) = true) ∧
    validateArgsForLocalFileAccess ["hello"] = .ok () ∧
    validateArgsForLocalFileAccess ["--flag=value"] = .ok () := by
  have hsingle : ∀ s : String,
      isErr (validateArgsForLocalFileAccess [s]) = isErr (validateArg s) := by
    intro s
    cases h : validateArg s with
    | error e =>
      unfold validateArgsForLocalFileAccess
      rw [h]
    | ok u =>
      unfold validateArgsForLocalFileAccess
      rw [h]
      rfl
  refine ⟨rfl, rfl, rfl, ?_, ?_, rfl, rfl⟩
  · intro s hlen
    rw [hsingle]
    unfold validateArg
    split_ifs with h1 h2 h3
    · rfl
    · rfl
    · rfl
    · exact absurd (by omega : s.length > 1000) h3
  · intro s hmem
    rw [hsingle]
    unfold validateArg
    split_ifs with h1 h2 h3
    · rfl
    · rfl
    · rfl
    · refine absurd ?_ h2
      simp only [List.any_eq_true, decide_eq_true_eq]
      exact ⟨_, hmem, rfl⟩

/-- Witness for claim C9: a concrete 1001-character string and a concrete
string with an embedded null byte both make the guard raise. -/
theorem claim_C9_safety_guard_witness :
    isErr (validateArgsForLocalFileAccess [String.mk (List.replicate 1001 'a')]) = true ∧
    isErr (validateArgsForLocalFileAccess ["x\x00y"]) = true :=
  ⟨claim_C9_safety_guard.2.2.2.1 (String.mk (List.replicate 1001 'a'))
      (by show (List.replicate 1001 'a').length = 1001
          exact List.length_replicate 1001 'a'),
   claim_C9_safety_guard.2.2.2.2.1 "x\x00y" (by decide)⟩

/-- Claim C10: the additionalProperties policy is applied only at the root;
a non-root object node with a non-empty properties map translates to the
same validator whatever its own additionalProperties field holds, and
that validator carries the default strip policy, so extra fields on such a
node are never validated against a declared additional-properties shape and
never explicitly permitted or forbidden by it. -/
theorem claim_C10_nested_ap_ignored (props : JPropList) (req : Option (List String))
    (ap ap2 : JAdditional) (enm : Option (List JLit)) (items : JItems) (desc : Option String)
    (_hne : props ≠ JPropList.nil) :
    createPropertySchema (.node (some "object") (.present props) req ap enm items desc)
      = createPropertySchema (.node (some "object") (.present props) req ap2 enm items desc) ∧
    createPropertySchema (.node (some "object") (.present props) req ap enm items desc)
      = .describeT (getDesc desc) (.objectT (buildProps props (req.getD [])) .strip) := by
  have h : ∀ a : JAdditional,
      createPropertySchema (.node (some "object") (.present props) req a enm items desc)
        = .describeT (getDesc desc) (.objectT (buildProps props (req.getD [])) .strip) := by
    intro a
    rw [createPropertySchema.eq_def]
    set_option maxRecDepth 4000 in simp
  exact ⟨(h ap).trans (h ap2).symm, h ap⟩

/-- Witness for claim C10 at a one-field property map and two different
additionalProperties values. -/
theorem claim_C10_nested_ap_ignored_witness :
    createPropertySchema (.node (some "object") (.present (.cons "x" strSchema .nil)) none
        (.boolVal true) none .absent none)
      = createPropertySchema (.node (some "object") (.present (.cons "x" strSchema .nil)) none
        (.schemaVal numSchema) none .absent none) ∧
    createPropertySchema (.node (some "object") (.present (.cons "x" strSchema .nil)) none
        (.boolVal true) none .absent none)
      = .describeT "" (.objectT (buildProps (.cons "x" strSchema .nil) []) .strip) :=
  claim_C10_nested_ap_ignored (.cons "x" strSchema .nil) none (.boolVal true)
    (.schemaVal numSchema) none .absent none (fun hc => JPropList.noConfusion hc)

end MCPBridge

